import Mathlib

/-!
Shallow embedding of the conversation-state core of `src/customgpt.py`:
the history store (`load_chat_history` / `save_chat_history`), the context
assembly inside `chat_with_openai`, the per-prompt orchestration at the
bottom of `main`, the sidebar file-analysis loop, and the attachment
normalizer (`process_file` / `process_image`).  External libraries
(the OpenAI client, PIL decoding, PyPDF2, pandas, the UTF-8 decoder and
the JSON parser) are modelled as explicit parameters or as per-file decode
outcomes; everything the repository's own code does is translated
line by line.
-/

/-- A persisted chat message: `{"role": ..., "content": ..., "timestamp": ...}`
as written by `main` (role and content are strings in every persisted
message of this program; the timestamp is `datetime.now().isoformat()`). -/
structure Message where
  role : String
  content : String
  timestamp : String
deriving DecidableEq, Repr

/-- A message as sent to the model API by `chat_with_openai`:
only `role` and `content` (the timestamp is dropped by the comprehension
`[{"role": msg["role"], "content": msg["content"]} for msg in history]`). -/
structure ChatMsg where
  role : String
  content : String
deriving DecidableEq, Repr

/-- JSON values, at the fidelity the persisted history file needs:
strings, arrays and objects (association lists of fields). -/
inductive Json where
  | str (s : String)
  | arr (elems : List Json)
  | obj (fields : List (String × Json))

/-- Key lookup in a JSON object's field list (first match wins), the way
Python dictionary access `msg["role"]` behaves after `json.load`. -/
def jsonLookup (key : String) : List (String × Json) → Option Json
  | [] => none
  | (k, v) :: rest => if k = key then some v else jsonLookup key rest

/-- Encoding of one message as the JSON object `json.dump` writes for it. -/
def encodeMessage (m : Message) : Json :=
  Json.obj [("role", Json.str m.role), ("content", Json.str m.content),
            ("timestamp", Json.str m.timestamp)]

/-- Reading one message object back: field access by key, so the order of
fields in the stored object is irrelevant. -/
def decodeMessage (j : Json) : Option Message :=
  match j with
  | Json.obj fields =>
    match jsonLookup "role" fields, jsonLookup "content" fields,
          jsonLookup "timestamp" fields with
    | some (Json.str role), some (Json.str content), some (Json.str ts) =>
      some ⟨role, content, ts⟩
    | _, _, _ => none
  | _ => none

/-- Reading back a list of message objects, failing if any element fails. -/
def decodeHistoryList : List Json → Option (List Message)
  | [] => some []
  | j :: rest =>
    match decodeMessage j, decodeHistoryList rest with
    | some m, some ms => some (m :: ms)
    | _, _ => none

/-- The persisted file is a JSON array of message objects. -/
def encodeHistory (history : List Message) : Json :=
  Json.arr (history.map encodeMessage)

/-- Reading the persisted JSON array back into a message list. -/
def decodeHistory : Json → Option (List Message)
  | Json.arr elems => decodeHistoryList elems
  | _ => none

/-- State of `chat_history.json` on disk: missing, present but not valid
JSON (so `json.load` raises), or present with a parsed JSON value. -/
inductive FileState where
  | absent
  | malformed
  | stored (j : Json)

/-- Embedding of `save_chat_history`: `json.dump(history, f, indent=2)`
overwrites the file with the encoded history. -/
def save_chat_history (history : List Message) : FileState :=
  FileState.stored (encodeHistory history)

/-- Embedding of `load_chat_history`.  Returns the loaded list together
with a flag recording whether `st.error` was shown.  If the file does not
exist the function returns `[]`; if `json.load` raises, the `except`
branch shows the error and returns `[]` as well. -/
def load_chat_history : FileState → List Message × Bool
  | FileState.absent => ([], false)
  | FileState.malformed => ([], true)
  | FileState.stored j => ((decodeHistory j).getD [], false)

theorem decodeMessage_encodeMessage (m : Message) :
    decodeMessage (encodeMessage m) = some m := rfl

theorem decodeHistoryList_encode (h : List Message) :
    decodeHistoryList (h.map encodeMessage) = some h := by
  induction h with
  | nil => rfl
  | cons m rest ih =>
    simp [decodeHistoryList, decodeMessage_encodeMessage, ih]

/-- Helper: loading right after saving returns the same history, with no
error shown. -/
theorem loadSave_eq (h : List Message) :
    load_chat_history (save_chat_history h) = (h, false) := by
  simp [load_chat_history, save_chat_history, encodeHistory, decodeHistory,
        decodeHistoryList_encode]

/-- The allow-list of upload extensions (`ALLOWED_TYPES` in the source). -/
def ALLOWED_TYPES : List String :=
  ["txt", "pdf", "csv", "json", "py", "md", "png", "jpg", "jpeg"]

/-- `MAX_FILE_SIZE = 5 * 1024 * 1024` bytes. -/
def MAX_FILE_SIZE : Nat := 5 * 1024 * 1024

/-- `MAX_IMAGE_SIZE = (1024, 1024)`, the maximum image dimensions. -/
def MAX_IMAGE_SIZE : Nat × Nat := (1024, 1024)

/-- `ratio = min(MAX_IMAGE_SIZE[0] / image.size[0], MAX_IMAGE_SIZE[1] / image.size[1])`
in exact rational arithmetic.  The source computes with Python floats;
on the inputs of interest the results agree with the exact values. -/
def imageScale (w h : Nat) : ℚ :=
  min ((MAX_IMAGE_SIZE.1 : ℚ) / (w : ℚ)) ((MAX_IMAGE_SIZE.2 : ℚ) / (h : ℚ))

/-- The dimension arithmetic of `process_image`: if the scale factor is
below 1 each dimension becomes `int(dim * ratio)` (truncation, which on
these nonnegative values is the floor); otherwise the image keeps its
size. -/
def process_image_dims (w h : Nat) : Nat × Nat :=
  if imageScale w h < 1 then
    (((w : ℚ) * imageScale w h).floor.toNat, ((h : ℚ) * imageScale w h).floor.toNat)
  else (w, h)

/-- What the external decoders would produce on this file's bytes: the
UTF-8 decode, the PyPDF2 text extraction, the pandas CSV rendering and
the `json.loads`/`json.dumps` pretty-print each either succeed with a
string or raise with a diagnostic; PIL image processing either yields the
base64 JPEG payload or fails (`process_image` turns that into `None`). -/
structure FileData where
  utf8 : Except String String
  pdfText : Except String String
  csvText : Except String String
  jsonText : Except String String
  imageB64 : Option String

/-- An uploaded file as Streamlit presents it: `name`, MIME `type`,
`size` in bytes, and its bytes (represented by their decode outcomes). -/
structure UploadedFile where
  name : String
  mime : String
  size : Nat
  data : FileData

/-- Splitting a character list on a separator, Python `str.split`
semantics: `split('.')` on a string with no dot yields the whole string,
and trailing separators yield empty groups. -/
def splitOnChar (sep : Char) : List Char → List (List Char)
  | [] => [[]]
  | c :: rest =>
    let r := splitOnChar sep rest
    if c = sep then [] :: r
    else
      match r with
      | [] => [[c]]
      | g :: gs => (c :: g) :: gs

/-- `uploaded_file.name.split('.')[-1].lower()`, computed over the
character list so it evaluates by reduction. -/
def fileExtension (name : String) : String :=
  ⟨((splitOnChar '.' name.data).getLastD []).map Char.toLower⟩

/-- `s.startswith(p)` over the character lists. -/
def strStartsWith (s p : String) : Bool :=
  p.data.isPrefixOf s.data

/-- Embedding of `process_image`: the whole body is wrapped in
`try/except`, and on any failure the function shows `st.error` and
returns `None`; on success it returns the base64 string. -/
def process_image (f : UploadedFile) : Option String :=
  f.data.imageB64

/-- Embedding of `process_file`, returning `(content, error)` exactly as
the source does: the extension allow-list check, then the size ceiling,
then extension-keyed dispatch.  Note the image branch returns
`(process_image(uploaded_file), None)` — the error slot is `None` even
when `process_image` failed. -/
def process_file (f : UploadedFile) : Option String × Option String :=
  let ext := fileExtension f.name
  if ¬ (ext ∈ ALLOWED_TYPES) then
    (none, some ("File type ." ++ ext ++ " is not supported"))
  else if f.size > MAX_FILE_SIZE then
    (none, some "File is too large (max 5MB)")
  else if ext ∈ ["png", "jpg", "jpeg"] then
    (process_image f, none)
  else if ext ∈ ["txt", "py", "md"] then
    match f.data.utf8 with
    | Except.ok s => (some s, none)
    | Except.error e => (none, some ("Error processing file: " ++ e))
  else if ext = "pdf" then
    match f.data.pdfText with
    | Except.ok s => (some s, none)
    | Except.error e => (none, some ("Error processing PDF: " ++ e))
  else if ext = "csv" then
    match f.data.csvText with
    | Except.ok s => (some s, none)
    | Except.error e => (none, some ("Error processing CSV: " ++ e))
  else if ext = "json" then
    match f.data.jsonText with
    | Except.ok s => (some s, none)
    | Except.error e => (none, some ("Error processing JSON: " ++ e))
  else
    (none, some "Unsupported file type")

/-- How Python renders an optional string into an f-string:
`None` prints as the text `None`. -/
def pyStrOfOption : Option String → String
  | some s => s
  | none => "None"

/-- The system message `chat_with_openai` always puts first. -/
def systemPreamble : ChatMsg :=
  ⟨"system", "You are a helpful assistant with perfect memory of the conversation history."⟩

/-- Dropping the timestamp, as the history comprehension in
`chat_with_openai` does. -/
def toChatMsg (m : Message) : ChatMsg := ⟨m.role, m.content⟩

/-- The message list `chat_with_openai` builds: system preamble first,
then the history entries in stored order (role and content only), then
`{"role": "user", "content": message}` appended last. -/
def chatMessages (message : String) (history : List Message) : List ChatMsg :=
  systemPreamble :: (history.map toChatMsg ++ [⟨"user", message⟩])

/-- Embedding of `chat_with_openai`, with the network call abstracted as
`invoke`: on success it returns `(text, None)`, on any exception
`(None, str(e))`. -/
def chat_with_openai (invoke : List ChatMsg → Except String String)
    (message : String) (history : List Message) : Option String × Option String :=
  match invoke (chatMessages message history) with
  | Except.ok reply => (some reply, none)
  | Except.error e => (none, some e)

/-- The orchestrator's state: the in-memory `st.session_state.messages`
list and the persisted file. -/
structure AppState where
  messages : List Message
  file : FileState

/-- The payload handed to the model during a prompt turn: `main` first
appends the new user message to `st.session_state.messages`, saves, and
then calls `chat_with_openai(prompt, st.session_state.messages)` — so the
history the assembler receives already contains the pending message. -/
def turnPayload (prompt ts1 : String) (s : AppState) : List ChatMsg :=
  chatMessages prompt (s.messages ++ [⟨"user", prompt, ts1⟩])

/-- Embedding of the `if prompt:` block at the end of `main`: append the
user message and save; invoke the model on the already-updated list; on
error only show it, otherwise append the assistant message and save
again.  `ts1` and `ts2` stand for the two `datetime.now().isoformat()`
calls. -/
def handlePrompt (invoke : List ChatMsg → Except String String)
    (prompt ts1 ts2 : String) (s : AppState) : AppState :=
  let msgs1 := s.messages ++ [⟨"user", prompt, ts1⟩]
  match chat_with_openai invoke prompt msgs1 with
  | (response, none) =>
    let msgs2 := msgs1 ++ [⟨"assistant", pyStrOfOption response, ts2⟩]
    ⟨msgs2, save_chat_history msgs2⟩
  | (_, some _) => ⟨msgs1, save_chat_history msgs1⟩

/-- One iteration of the `Analyze Files` loop in the sidebar.  Image-MIME
files go through `process_image` and the vision call; a `None` from
`process_image` or an error from the vision call appends nothing, a
successful vision call appends a single assistant message and saves.
Other files go through `process_file`; an error shows `st.error` and
appends nothing, success appends a single user message (whose content
interpolates `content`, printing `None` when it is absent) and saves. -/
def analyzeFile (vision : UploadedFile → Except String String) (ts : String)
    (s : AppState) (f : UploadedFile) : AppState :=
  if strStartsWith f.mime "image/" then
    match process_image f with
    | none => s
    | some _ =>
      match vision f with
      | Except.error _ => s
      | Except.ok response =>
        let msgs := s.messages ++ [⟨"assistant", response, ts⟩]
        ⟨msgs, save_chat_history msgs⟩
  else
    match process_file f with
    | (_, some _) => s
    | (content, none) =>
      let msgs := s.messages ++
        [⟨"user", "Analyzing file: " ++ f.name ++ "\n\n" ++ pyStrOfOption content, ts⟩]
      ⟨msgs, save_chat_history msgs⟩

/-- The `for uploaded_file in uploaded_files:` loop. -/
def analyzeFiles (vision : UploadedFile → Except String String) (ts : String)
    (files : List UploadedFile) (s : AppState) : AppState :=
  files.foldl (analyzeFile vision ts) s

/-- Python `messages[-10:]`. -/
def lastTen (msgs : List Message) : List Message :=
  msgs.drop (msgs.length - 10)

/-- The display list: `st.session_state.messages` when `show_full_history`
is set, else `messages[-10:] if messages else []`.  This windowing is the
only "last N" policy in the source, and it feeds the chat display, not
the model payload. -/
def messagesToShow (showFull : Bool) (msgs : List Message) : List Message :=
  if showFull then msgs
  else if msgs.isEmpty then []
  else lastTen msgs

/-- A plain text upload whose UTF-8 decode succeeds. -/
def sampleTxtFile : UploadedFile :=
  ⟨"notes.txt", "text/plain", 10,
   ⟨Except.ok "hello notes", Except.ok "", Except.ok "", Except.ok "", none⟩⟩

/-- An upload with an extension outside the allow-list. -/
def sampleExeFile : UploadedFile :=
  ⟨"virus.exe", "application/octet-stream", 4,
   ⟨Except.ok "", Except.ok "", Except.ok "", Except.ok "", none⟩⟩

/-- A PNG upload whose PIL pipeline succeeds with some base64 payload. -/
def samplePngFile : UploadedFile :=
  ⟨"photo.png", "image/png", 16,
   ⟨Except.ok "", Except.ok "", Except.ok "", Except.ok "", some "b64payload"⟩⟩

/-- A PNG upload whose PIL decoding fails, so `process_image` returns
`None`. -/
def badPngFile : UploadedFile :=
  ⟨"photo.png", "image/png", 16,
   ⟨Except.ok "", Except.ok "", Except.ok "", Except.ok "", none⟩⟩

/-- A fresh session: no messages, no history file. -/
def emptyState : AppState := ⟨[], FileState.absent⟩

/-- Eleven stored messages, used to exercise the display window. -/
def elevenMessages : List Message :=
  List.replicate 11 ⟨"user", "x", "t"⟩

/-- C6: for every history H (messages with role, content and timestamp
fields), loading right after saving returns exactly H — the JSON object
round-trips structurally, and field order is irrelevant because decoding
looks fields up by key. -/
theorem load_save_roundtrip (h : List Message) :
    load_chat_history (save_chat_history h) = (h, false) :=
  loadSave_eq h

/-- C5 counterexample: on a file that exists but cannot be parsed,
`load_chat_history` returns the empty list to its caller (the `True`
flag records that the error was only displayed via `st.error`) — it does
not surface a `PersistenceError` instead of returning an empty list. -/
theorem load_malformed_returns_empty_cex :
    load_chat_history FileState.malformed = ([], true) ∧
    (load_chat_history FileState.malformed).1 = [] := by
  constructor <;> rfl

/-- C5 amended: `load_chat_history` returns the persisted sequence when
persisted data exists and the empty sequence when none exists; when the
data exists but cannot be read or parsed it displays the error and
returns the empty list to the caller (no error value reaches the
caller). -/
theorem load_chat_history_behavior :
    (∀ h : List Message, load_chat_history (save_chat_history h) = (h, false)) ∧
    load_chat_history FileState.absent = ([], false) ∧
    load_chat_history FileState.malformed = ([], true) :=
  ⟨fun h => loadSave_eq h, rfl, rfl⟩

/-- C1 counterexample: starting from an empty history with pending text
"hello", the assembled payload contains the pending user message twice
(once because `main` appended it to the history before invoking, once
because `chat_with_openai` appends it again), not exactly once. -/
theorem turnPayload_pending_twice_cex :
    ((turnPayload "hello" "t0" emptyState).count ⟨"user", "hello"⟩ = 2) ∧
    ((turnPayload "hello" "t0" emptyState).count ⟨"user", "hello"⟩ ≠ 1) := by
  constructor <;> decide

/-- C1 amended: the payload places the system preamble first, then the
stored history in order (role and content only), and ends with the
pending user message twice: `main` appends the pending message to the
history before calling `chat_with_openai`, which appends it once more as
the last element. -/
theorem turnPayload_structure (prompt ts : String) (s : AppState) :
    turnPayload prompt ts s =
      systemPreamble :: (s.messages.map toChatMsg ++ [⟨"user", prompt⟩, ⟨"user", prompt⟩]) := by
  simp [turnPayload, chatMessages, toChatMsg]

/-- C2: when the model invocation on the turn's payload succeeds with
`reply`, the history grows by exactly the user message followed by the
assistant message, its length by exactly 2, and the resulting list is
what gets persisted. -/
theorem handlePrompt_success (invoke : List ChatMsg → Except String String)
    (prompt ts1 ts2 reply : String) (s : AppState)
    (h : invoke (turnPayload prompt ts1 s) = Except.ok reply) :
    (handlePrompt invoke prompt ts1 ts2 s).messages
        = s.messages ++ [⟨"user", prompt, ts1⟩, ⟨"assistant", reply, ts2⟩] ∧
    (handlePrompt invoke prompt ts1 ts2 s).messages.length = s.messages.length + 2 ∧
    (handlePrompt invoke prompt ts1 ts2 s).file
        = save_chat_history
            (s.messages ++ [⟨"user", prompt, ts1⟩, ⟨"assistant", reply, ts2⟩]) := by
  have hpay : chatMessages prompt (s.messages ++ [⟨"user", prompt, ts1⟩])
      = turnPayload prompt ts1 s := rfl
  simp only [handlePrompt, chat_with_openai, hpay, h, pyStrOfOption, List.append_assoc,
    List.cons_append, List.nil_append]
  simp

/-- C2 witness: a concrete successful turn from the empty session. -/
theorem handlePrompt_success_witness :
    (handlePrompt (fun _ => Except.ok "hi") "hello" "t1" "t2" emptyState).messages
      = [⟨"user", "hello", "t1"⟩, ⟨"assistant", "hi", "t2"⟩] := by
  have h := handlePrompt_success (fun _ => Except.ok "hi") "hello" "t1" "t2" "hi"
    emptyState rfl
  simpa [emptyState] using h.1

/-- C3: when the model invocation on the turn's payload fails, only the
user message is appended (length grows by exactly 1), that list is what
gets persisted, and no assistant message is fabricated. -/
theorem handlePrompt_failure (invoke : List ChatMsg → Except String String)
    (prompt ts1 ts2 e : String) (s : AppState)
    (h : invoke (turnPayload prompt ts1 s) = Except.error e) :
    (handlePrompt invoke prompt ts1 ts2 s).messages
        = s.messages ++ [⟨"user", prompt, ts1⟩] ∧
    (handlePrompt invoke prompt ts1 ts2 s).messages.length = s.messages.length + 1 ∧
    (handlePrompt invoke prompt ts1 ts2 s).file
        = save_chat_history (s.messages ++ [⟨"user", prompt, ts1⟩]) := by
  have hpay : chatMessages prompt (s.messages ++ [⟨"user", prompt, ts1⟩])
      = turnPayload prompt ts1 s := rfl
  simp only [handlePrompt, chat_with_openai, hpay, h]
  simp

/-- C3 witness: a concrete failing turn from the empty session. -/
theorem handlePrompt_failure_witness :
    (handlePrompt (fun _ => Except.error "rate limited") "hello" "t1" "t2" emptyState).messages
      = [⟨"user", "hello", "t1"⟩] := by
  have h := handlePrompt_failure (fun _ => Except.error "rate limited") "hello" "t1" "t2"
    "rate limited" emptyState rfl
  simpa [emptyState] using h.1

/-- C4 counterexample: a batch whose first attachment fails the type
check and whose second is a valid text file.  The loop surfaces the
first error but does not abort: the second file's message is appended,
so the history does not stay unchanged. -/
theorem analyzeFiles_no_abort_cex :
    (analyzeFiles (fun _ => Except.error "") "t" [sampleExeFile, sampleTxtFile]
        emptyState).messages
      = [⟨"user", "Analyzing file: notes.txt\n\nhello notes", "t"⟩] ∧
    (analyzeFiles (fun _ => Except.error "") "t" [sampleExeFile, sampleTxtFile]
        emptyState).messages ≠ emptyState.messages := by
  have h1 : (analyzeFiles (fun _ => Except.error "") "t" [sampleExeFile, sampleTxtFile]
      emptyState).messages
      = [⟨"user", "Analyzing file: notes.txt\n\nhello notes", "t"⟩] := by rfl
  refine ⟨h1, ?_⟩
  rw [h1]
  simp [emptyState]

/-- C4 amended: a single failing attachment appends nothing — a
non-image file on which `process_file` reports an error, or an image
file on which `process_image` returns `None`, leaves the state exactly
as it was — but the turn does not abort: the loop continues with the
remaining attachments, and messages appended for successful attachments
of the same batch remain. -/
theorem analyzeFile_failure_skips (vision : UploadedFile → Except String String)
    (ts : String) (s : AppState) (f : UploadedFile)
    (h : (¬ strStartsWith f.mime "image/" = true ∧ (process_file f).2.isSome = true)
       ∨ (strStartsWith f.mime "image/" = true ∧ process_image f = none)) :
    analyzeFile vision ts s f = s ∧
    ∀ rest : List UploadedFile,
      analyzeFiles vision ts (f :: rest) s = analyzeFiles vision ts rest s := by
  have hskip : analyzeFile vision ts s f = s := by
    rcases h with ⟨hmime, herr⟩ | ⟨hmime, himg⟩
    · rw [analyzeFile, if_neg hmime]
      rcases hsnd : (process_file f).2 with _ | e
      · rw [hsnd] at herr; simp at herr
      · rcases hfst : (process_file f).1 with _ | c <;>
          rw [show process_file f = ((process_file f).1, (process_file f).2) from rfl,
              hfst, hsnd]
    · rw [analyzeFile, if_pos hmime, himg]
  exact ⟨hskip, fun rest => by simp [analyzeFiles, hskip]⟩

/-- C4 witness: the unsupported-extension file is skipped with the state
untouched. -/
theorem analyzeFile_failure_skips_witness :
    analyzeFile (fun _ => Except.error "") "t" emptyState sampleExeFile = emptyState := by
  exact (analyzeFile_failure_skips (fun _ => Except.error "") "t" emptyState sampleExeFile
    (Or.inl ⟨by decide, by decide⟩)).1

/-- C7 counterexample: with the only "last N" policy in the source
active (`show_full_history = False`, N = 10) and eleven stored messages,
the displayed list is capped at 10 but the payload sent to the model
still contains 12 history messages (the 11 stored ones plus the appended
pending copy) once the preamble and the final pending element are
excluded — more than N. -/
theorem payload_window_cex :
    (messagesToShow false elevenMessages).length = 10 ∧
    ¬ ((turnPayload "q" "t" ⟨elevenMessages, FileState.absent⟩).length - 2 ≤ 10) := by
  constructor <;> decide

/-- C7 amended: the "last N" (N = 10) window applies only to the chat
display — the displayed list never exceeds 10 messages — while the
payload sent to the model always contains the entire stored history
(its length is the full history length plus preamble, appended pending
copy, and final pending message). -/
theorem window_applies_to_display_only :
    (∀ msgs : List Message, (messagesToShow false msgs).length ≤ 10) ∧
    (∀ prompt ts : String, ∀ s : AppState,
      (turnPayload prompt ts s).length = s.messages.length + 3) := by
  constructor
  · intro msgs
    by_cases h : msgs.isEmpty
    · simp [messagesToShow, h]
    · simp [messagesToShow, h, lastTen]
      omega
  · intro prompt ts s
    simp [turnPayload, chatMessages]

/-- Helper: `Rat.floor` agrees with the floor of the `FloorRing`
instance on ℚ. -/
theorem ratFloor_eq (q : ℚ) : Rat.floor q = ⌊q⌋ := by
  rw [Rat.floor_def', Rat.floor_def]

/-- Helper: the concrete dimension computation on a 1024×1536 image:
the scale factor is 2/3 and truncation gives 682×1024. -/
theorem image_dims_at_1024_1536 : process_image_dims 1024 1536 = (682, 1024) := by
  have hscale : imageScale 1024 1536 = 2/3 := by
    unfold imageScale MAX_IMAGE_SIZE
    rw [min_def]
    norm_num
  unfold process_image_dims
  rw [hscale, if_pos (by norm_num : (2/3 : ℚ) < 1)]
  have h1 : ((1024 : Nat) : ℚ) * (2/3) = ((2048 : ℕ) : ℚ) / ((3 : ℕ) : ℚ) := by
    push_cast
    norm_num
  have h2 : ((1536 : Nat) : ℚ) * (2/3) = ((1024 : ℕ) : ℚ) := by
    push_cast
    norm_num
  rw [h1, h2, ratFloor_eq, ratFloor_eq, Rat.floor_natCast_div_natCast, Int.floor_natCast]
  decide

/-- C8 counterexample: on a 1024×1536 image the exact scale factor is
2/3 and Python's `int` truncates `1024 * (2/3)` to 682, so the output is
682×1024, not the 683×1024 the claim states. -/
theorem image_dims_example_cex :
    process_image_dims 1024 1536 = (682, 1024) ∧
    process_image_dims 1024 1536 ≠ (683, 1024) := by
  refine ⟨image_dims_at_1024_1536, ?_⟩
  rw [image_dims_at_1024_1536]
  decide

/-- C8 amended: the scale factor `min(1024/w, 1024/h)` is applied only
when it is below 1 and each scaled dimension is truncated, so neither
output dimension exceeds 1024; in particular a 1024×1536 image becomes
682×1024 (aspect ratio is preserved only up to that truncation). -/
theorem image_dims_bounded :
    (∀ w h : Nat, 1 ≤ w → 1 ≤ h →
      (process_image_dims w h).1 ≤ 1024 ∧ (process_image_dims w h).2 ≤ 1024) ∧
    process_image_dims 1024 1536 = (682, 1024) := by
  constructor
  · intro w h hw hh
    have hw0 : ((w : ℚ)) ≠ 0 := by
      exact_mod_cast Nat.pos_iff_ne_zero.mp hw
    have hh0 : ((h : ℚ)) ≠ 0 := by
      exact_mod_cast Nat.pos_iff_ne_zero.mp hh
    have hwpos : (0 : ℚ) < (w : ℚ) := by positivity
    have hhpos : (0 : ℚ) < (h : ℚ) := by positivity
    have hle1 : imageScale w h ≤ (MAX_IMAGE_SIZE.1 : ℚ) / (w : ℚ) := by
      unfold imageScale
      exact min_le_left _ _
    have hle2 : imageScale w h ≤ (MAX_IMAGE_SIZE.2 : ℚ) / (h : ℚ) := by
      unfold imageScale
      exact min_le_right _ _
    unfold process_image_dims
    by_cases hlt : imageScale w h < 1
    · rw [if_pos hlt]
      have hwbound : (w : ℚ) * imageScale w h ≤ 1024 := by
        have h1 : imageScale w h * (w : ℚ) ≤ ((MAX_IMAGE_SIZE.1 : ℚ) / (w : ℚ)) * (w : ℚ) :=
          mul_le_mul_of_nonneg_right hle1 (le_of_lt hwpos)
        rw [div_mul_cancel₀ _ hw0] at h1
        rw [mul_comm]
        simpa [MAX_IMAGE_SIZE] using h1
      have hhbound : (h : ℚ) * imageScale w h ≤ 1024 := by
        have h1 : imageScale w h * (h : ℚ) ≤ ((MAX_IMAGE_SIZE.2 : ℚ) / (h : ℚ)) * (h : ℚ) :=
          mul_le_mul_of_nonneg_right hle2 (le_of_lt hhpos)
        rw [div_mul_cancel₀ _ hh0] at h1
        rw [mul_comm]
        simpa [MAX_IMAGE_SIZE] using h1
      have hwfloor : Rat.floor ((w : ℚ) * imageScale w h) ≤ 1024 := by
        by_contra hc
        push_neg at hc
        have h2 : ((1025 : ℤ) : ℚ) ≤ (w : ℚ) * imageScale w h := Rat.le_floor.mp (by omega)
        push_cast at h2
        linarith
      have hhfloor : Rat.floor ((h : ℚ) * imageScale w h) ≤ 1024 := by
        by_contra hc
        push_neg at hc
        have h2 : ((1025 : ℤ) : ℚ) ≤ (h : ℚ) * imageScale w h := Rat.le_floor.mp (by omega)
        push_cast at h2
        linarith
      constructor
      · exact Int.toNat_le.mpr (by exact_mod_cast hwfloor)
      · exact Int.toNat_le.mpr (by exact_mod_cast hhfloor)
    · rw [if_neg hlt]
      push_neg at hlt
      have hw1 : (1 : ℚ) ≤ (MAX_IMAGE_SIZE.1 : ℚ) / (w : ℚ) := le_trans hlt hle1
      have hh1 : (1 : ℚ) ≤ (MAX_IMAGE_SIZE.2 : ℚ) / (h : ℚ) := le_trans hlt hle2
      rw [le_div_iff₀ hwpos, one_mul] at hw1
      rw [le_div_iff₀ hhpos, one_mul] at hh1
      simp only [MAX_IMAGE_SIZE] at hw1 hh1
      constructor
      · exact_mod_cast hw1
      · exact_mod_cast hh1
  · exact image_dims_at_1024_1536

/-- C8 witness: the spec's 2000×3000 scenario stays within the 1024
bound. -/
theorem image_dims_bounded_witness :
    (process_image_dims 2000 3000).1 ≤ 1024 ∧ (process_image_dims 2000 3000).2 ≤ 1024 :=
  image_dims_bounded.1 2000 3000 (by decide) (by decide)

/-- C9 counterexample: analyzing a single image attachment whose vision
call succeeds appends exactly one assistant message to a history that
contains no user message at all — an assistant message without a
preceding user message of the same turn. -/
theorem assistant_only_append_cex :
    (analyzeFiles (fun _ => Except.ok "a gray cat") "t" [samplePngFile] emptyState).messages
      = [⟨"assistant", "a gray cat", "t"⟩] ∧
    ((analyzeFiles (fun _ => Except.ok "a gray cat") "t" [samplePngFile]
        emptyState).messages.map Message.role) = ["assistant"] := by
  constructor <;> rfl

/-- C9 amended: a prompt turn appends user-then-assistant on success and
the user message alone on failure, but the file-analysis loop is a third
mutator: each file appends at most one message, which for an image with
a successful vision call is a lone assistant message with no paired user
message, and for a non-image file a lone user message. -/
theorem history_mutation_shapes :
    (∀ prompt ts1 ts2 reply : String, ∀ s : AppState,
      (handlePrompt (fun _ => Except.ok reply) prompt ts1 ts2 s).messages
        = s.messages ++ [⟨"user", prompt, ts1⟩, ⟨"assistant", reply, ts2⟩]) ∧
    (∀ prompt ts1 ts2 e : String, ∀ s : AppState,
      (handlePrompt (fun _ => Except.error e) prompt ts1 ts2 s).messages
        = s.messages ++ [⟨"user", prompt, ts1⟩]) ∧
    (∀ vision : UploadedFile → Except String String, ∀ ts : String,
     ∀ s : AppState, ∀ f : UploadedFile,
      (analyzeFile vision ts s f).messages = s.messages ∨
      ∃ m : Message, (analyzeFile vision ts s f).messages = s.messages ++ [m]) := by
  refine ⟨fun prompt ts1 ts2 reply s => ?_, fun prompt ts1 ts2 e s => ?_,
    fun vision ts s f => ?_⟩
  · simp [handlePrompt, chat_with_openai, pyStrOfOption]
  · simp [handlePrompt, chat_with_openai]
  · unfold analyzeFile
    by_cases hm : strStartsWith f.mime "image/" = true
    · rw [if_pos hm]
      cases himg : process_image f with
      | none => exact Or.inl rfl
      | some b =>
        cases hv : vision f with
        | error e => exact Or.inl rfl
        | ok r => exact Or.inr ⟨_, rfl⟩
    · rw [if_neg hm]
      rcases hp : process_file f with ⟨c, err⟩
      cases err with
      | none => exact Or.inr ⟨_, rfl⟩
      | some e => exact Or.inl rfl

/-- C10 (code defect): an image upload whose decoding fails makes
`process_image` return `None`, and the image branch of `process_file`
passes that through as `(None, None)` — the success shape with absent
content and no error value, exactly what the claim (and the spec's own
error-taxonomy section) says must never happen. -/
theorem process_file_image_failure_silent :
    process_file badPngFile = (none, none) ∧ process_image badPngFile = none := by
  constructor <;> rfl
